import Mathlib

/-!
Verification of the rocket telemetry aggregation engine
(`internal/rocket/service.go`, `internal/rocket/store.go`, data model in the
`rocket` package).

Modelling conventions:
* `uuid.UUID` is modelled by its canonical string form (`String`); the code
  only compares identifiers for equality and, when sorting, by the
  lexicographic order of `UUID.String()`.
* `time.Time` is modelled as `Int`; the code only copies timestamps and
  compares them with `Before`, modelled by `<`.
* Go `int64` values are modelled as `Int`; the only arithmetic the code
  performs on them is the speed `+=` / `-=`, where two-complement wraparound
  is modelled explicitly by `wrap64`.
* A nil-pointer dereference (a telemetry payload missing a field that the
  event kind requires) aborts `ProcessMessage` before any `SaveRocket` call;
  it is modelled by an `Option` failure of `applyEvent`.
* The store is modelled as a function from identifier to optional state;
  `SaveRocket` writes at the key `state.ID`, as the Go map assignment does.
-/

/-- Go `strings.ToLower`, character by character. -/
def stringsToLower (s : String) : String := ⟨s.data.map Char.toLower⟩

/-- Two-complement wraparound of Go `int64` arithmetic. -/
def wrap64 (x : Int) : Int := (x + 2 ^ 63) % 2 ^ 64 - 2 ^ 63

/-- Identifier of a rocket: the canonical string form of `uuid.UUID`. -/
abbrev UUID := String

/-- Timestamp: models `time.Time`; `Before` is `<`. -/
abbrev TimeT := Int

/-- Status constant `StatusLaunched`. -/
def statusLaunched : String := "LAUNCHED"

/-- Status constant `StatusExploded`. -/
def statusExploded : String := "EXPLODED"

/-- Message type constant `MessageTypeExploded`. -/
def messageTypeExploded : String := "RocketExploded"

/-- Message type constant `MessageTypeLaunched`. -/
def messageTypeLaunched : String := "RocketLaunched"

/-- Message type constant `MessageTypeMissionChanged`. -/
def messageTypeMissionChanged : String := "RocketMissionChanged"

/-- Message type constant `MessageTypeSpeedDecreased`. -/
def messageTypeSpeedDecreased : String := "RocketSpeedDecreased"

/-- Message type constant `MessageTypeSpeedIncreased`. -/
def messageTypeSpeedIncreased : String := "RocketSpeedIncreased"

/-- Go struct `State` (rocket state). The field `type_` models the Go field
`Type` (a Lean keyword), `status_` models `Status`. `Reason` is a `*string`,
hence an `Option`. -/
structure State where
  ID : UUID
  type_ : String
  CurrentSpeed : Int
  Mission : String
  status_ : String
  Reason : Option String
  LastUpdateTime : TimeT
  LastProcessedMessageNumber : Int
deriving DecidableEq, Repr

/-- Go struct `MessageMetadata`. -/
structure MessageMetadata where
  Channel : UUID
  MessageNumber : Int
  MessageTime : TimeT
  MessageType : String
deriving DecidableEq, Repr

/-- Go struct `Message`: the kind-specific payload, all fields optional
pointers. `type_` models the Go field `Type`. -/
structure Message where
  By : Option Int
  LaunchSpeed : Option Int
  Mission : Option String
  NewMission : Option String
  Reason : Option String
  type_ : Option String
deriving DecidableEq, Repr

/-- Go struct `TelemetryMessage`. The field `Message_` models the Go field
`Message` (the name of its own type). -/
structure TelemetryMessage where
  Metadata : MessageMetadata
  Message_ : Message
deriving DecidableEq, Repr

/-- The store contents: `InMemoryRocketStore.rockets`, a map from identifier
to state. -/
def Store := UUID → Option State

/-- `Store.GetRocketByID`: map lookup. -/
def getRocketByID (s : Store) (id : UUID) : Option State := s id

/-- `Store.SaveRocket`: map assignment `rockets[state.ID] = state`. -/
def saveRocket (s : Store) (state : State) : Store :=
  fun i => if i = state.ID then some state else s i

/-- The fresh state `State{ID: rocketID, Status: "UNKNOWN"}` built for a
first-seen identifier; the remaining fields are the Go zero values. -/
def newRocket (rocketID : UUID) : State :=
  { ID := rocketID
    type_ := ""
    CurrentSpeed := 0
    Mission := ""
    status_ := "UNKNOWN"
    Reason := none
    LastUpdateTime := 0
    LastProcessedMessageNumber := 0 }

/-- The mutation half of `ServiceImpl.ProcessMessage`: the unconditional
update of `LastProcessedMessageNumber` and `LastUpdateTime` followed by the
`switch` on the message type. Returns `none` when the Go code would
dereference a nil payload pointer (aborting before any save). -/
def applyEvent (msg : TelemetryMessage) (state : State) : Option State :=
  let newState :=
    { state with
      LastProcessedMessageNumber := msg.Metadata.MessageNumber
      LastUpdateTime := msg.Metadata.MessageTime }
  if msg.Metadata.MessageType = messageTypeLaunched then
    match msg.Message_.type_, msg.Message_.LaunchSpeed, msg.Message_.Mission with
    | some t, some ls, some mi =>
        some { newState with
                type_ := t
                CurrentSpeed := ls
                Mission := mi
                status_ := statusLaunched }
    | _, _, _ => none
  else if msg.Metadata.MessageType = messageTypeSpeedIncreased then
    match msg.Message_.By with
    | some b => some { newState with CurrentSpeed := wrap64 (newState.CurrentSpeed + b) }
    | none => none
  else if msg.Metadata.MessageType = messageTypeSpeedDecreased then
    match msg.Message_.By with
    | some b => some { newState with CurrentSpeed := wrap64 (newState.CurrentSpeed - b) }
    | none => none
  else if msg.Metadata.MessageType = messageTypeExploded then
    some { newState with
            CurrentSpeed := 0
            status_ := statusExploded
            Reason := msg.Message_.Reason }
  else if msg.Metadata.MessageType = messageTypeMissionChanged then
    match msg.Message_.NewMission with
    | some m => some { newState with Mission := m }
    | none => none
  else
    some newState

/-- `ServiceImpl.ProcessMessage`. The outer `Option` is `none` exactly when
the Go code panics on a nil payload pointer; otherwise the result carries the
new store contents and the returned `error`, which is always `nil`
(`none`). -/
def processMessage (store : Store) (msg : TelemetryMessage) :
    Option (Store × Option String) :=
  let rocketID := msg.Metadata.Channel
  match store rocketID with
  | some currentState =>
      if msg.Metadata.MessageNumber ≤ currentState.LastProcessedMessageNumber then
        some (store, none)
      else
        (applyEvent msg currentState).map
          (fun newState => (saveRocket store newState, none))
  | none =>
      (applyEvent msg (newRocket rocketID)).map
        (fun newState => (saveRocket store newState, none))

/-- The store contents after one `ProcessMessage` call: a nil-pointer
dereference aborts before any `SaveRocket`, leaving the store unchanged. -/
def stepStore (store : Store) (msg : TelemetryMessage) : Store :=
  match processMessage store msg with
  | some (s, _) => s
  | none => store

/-- The store contents after a sequence of `ProcessMessage` calls. -/
def processList (store : Store) (evs : List TelemetryMessage) : Store :=
  evs.foldl stepStore store

/-- The last processed sequence number stored for `id`, when a state is
stored. -/
def lastSeqAt (store : Store) (id : UUID) : Option Int :=
  (store id).map (fun st => st.LastProcessedMessageNumber)

/-- Whether `ProcessMessage` drops `msg` as old or duplicate: a state is
stored for its channel and the message number does not exceed the stored
last processed number. -/
def isDropped (store : Store) (msg : TelemetryMessage) : Bool :=
  match store msg.Metadata.Channel with
  | some st => decide (msg.Metadata.MessageNumber ≤ st.LastProcessedMessageNumber)
  | none => false

/-- The sequence numbers of the events of a delivery sequence that are not
dropped by the dedup rule, in delivery order. -/
def notDroppedSeqs (store : Store) : List TelemetryMessage → List Int
  | [] => []
  | m :: ms =>
      if isDropped store m then notDroppedSeqs store ms
      else m.Metadata.MessageNumber :: notDroppedSeqs (stepStore store m) ms

/-- A payload is well formed for its message type when every field the
`switch` dereferences is present (the validation the boundary adapter owes
the engine). -/
def wellFormed (msg : TelemetryMessage) : Bool :=
  if msg.Metadata.MessageType = messageTypeLaunched then
    msg.Message_.type_.isSome && msg.Message_.LaunchSpeed.isSome &&
      msg.Message_.Mission.isSome
  else if msg.Metadata.MessageType = messageTypeSpeedIncreased then
    msg.Message_.By.isSome
  else if msg.Metadata.MessageType = messageTypeSpeedDecreased then
    msg.Message_.By.isSome
  else if msg.Metadata.MessageType = messageTypeExploded then
    true
  else if msg.Metadata.MessageType = messageTypeMissionChanged then
    msg.Message_.NewMission.isSome
  else
    true

/-- Insertion of an element into a list sorted ascending by the boolean
comparator `le`. -/
def insertSorted {α : Type} (le : α → α → Bool) (x : α) : List α → List α
  | [] => [x]
  | y :: ys => if le x y then x :: y :: ys else y :: insertSorted le x ys

/-- Model of Go `sort.Slice`: a permutation of the input ordered ascending
with respect to the comparator. -/
def insertionSortB {α : Type} (le : α → α → Bool) : List α → List α
  | [] => []
  | x :: xs => insertSorted le x (insertionSortB le xs)

/-- Applies the `desc` reversal of `ListAllRockets`: when `sortOrder` is
case-insensitively `desc`, the comparison is negated. -/
def flipDesc (sortOrder : String) (less : Bool) : Bool :=
  if stringsToLower sortOrder = "desc" then !less else less

/-- The comparator closure passed to `sort.Slice` by
`ServiceImpl.ListAllRockets`, over elements tagged with their position: the
first components model the index parameters `i`, `j`, so the `default`
branch compares original positions (and skips the `desc` reversal, as the
Go `return i < j` does). -/
def sliceLess (sortBy sortOrder : String) (p q : Nat × State) : Bool :=
  if stringsToLower sortBy = "id" then
    flipDesc sortOrder (decide (p.2.ID < q.2.ID))
  else if stringsToLower sortBy = "type" then
    flipDesc sortOrder (decide (p.2.type_ < q.2.type_))
  else if stringsToLower sortBy = "speed" then
    flipDesc sortOrder (decide (p.2.CurrentSpeed < q.2.CurrentSpeed))
  else if stringsToLower sortBy = "mission" then
    flipDesc sortOrder (decide (p.2.Mission < q.2.Mission))
  else if stringsToLower sortBy = "lastupdatetime" then
    flipDesc sortOrder (decide (p.2.LastUpdateTime < q.2.LastUpdateTime))
  else
    decide (p.1 < q.1)

/-- `ServiceImpl.ListAllRockets`, as a function of the snapshot the store
returns: empty `sortBy` skips sorting; otherwise `sort.Slice` reorders the
snapshot ascending with respect to `sliceLess` (an element is placed before
another when the latter is not less than the former). -/
def listAllRockets (rockets : List State) (sortBy sortOrder : String) : List State :=
  if sortBy = "" then rockets
  else
    (insertionSortB (fun p q => !(sliceLess sortBy sortOrder q p)) rockets.enum).map
      Prod.snd

/-- The `switch` of `ProcessMessage` never touches the `ID` field. -/
theorem applyEvent_ID (msg : TelemetryMessage) (st ns : State)
    (h : applyEvent msg st = some ns) : ns.ID = st.ID := by
  unfold applyEvent at h
  repeat' split at h
  all_goals simp_all
  all_goals subst h; rfl

/-- Every state produced by the `switch` carries the message number of the
processed message. -/
theorem applyEvent_lastSeq (msg : TelemetryMessage) (st ns : State)
    (h : applyEvent msg st = some ns) :
    ns.LastProcessedMessageNumber = msg.Metadata.MessageNumber := by
  unfold applyEvent at h
  repeat' split at h
  all_goals simp_all
  all_goals subst h; rfl

/-- Every state produced by the `switch` carries the message time of the
processed message. -/
theorem applyEvent_lastTime (msg : TelemetryMessage) (st ns : State)
    (h : applyEvent msg st = some ns) :
    ns.LastUpdateTime = msg.Metadata.MessageTime := by
  unfold applyEvent at h
  repeat' split at h
  all_goals simp_all
  all_goals subst h; rfl

/-- On a well-formed payload the `switch` dereferences no nil pointer. -/
theorem applyEvent_isSome (msg : TelemetryMessage) (st : State)
    (h : wellFormed msg = true) : ∃ ns, applyEvent msg st = some ns := by
  unfold wellFormed at h
  unfold applyEvent
  split_ifs at h ⊢ <;> simp_all
  · obtain ⟨⟨h1, h2⟩, h3⟩ := h
    cases ht : msg.Message_.type_ <;> cases hl : msg.Message_.LaunchSpeed <;>
      cases hm : msg.Message_.Mission <;> simp_all
  · cases hb : msg.Message_.By <;> simp_all
  · cases hb : msg.Message_.By <;> simp_all
  · cases hb : msg.Message_.NewMission <;> simp_all

/-- Inserting is a permutation. -/
theorem insertSorted_perm {α : Type} (le : α → α → Bool) (x : α) (l : List α) :
    (insertSorted le x l).Perm (x :: l) := by
  induction l with
  | nil => simp [insertSorted]
  | cons y ys ih =>
      unfold insertSorted
      split
      · exact List.Perm.refl _
      · exact (List.Perm.cons y ih).trans (List.Perm.swap x y ys)

/-- Sorting is a permutation. -/
theorem insertionSortB_perm {α : Type} (le : α → α → Bool) (l : List α) :
    (insertionSortB le l).Perm l := by
  induction l with
  | nil => exact List.Perm.refl _
  | cons x xs ih =>
      exact (insertSorted_perm le x (insertionSortB le xs)).trans (List.Perm.cons x ih)

/-- Inserting preserves an ordering `R` that the comparator decides: a
positive comparison yields `R` one way, a negative one the other way. -/
theorem pairwise_insertSorted {α : Type} {le : α → α → Bool} {R : α → α → Prop}
    (htrans : ∀ a b c, R a b → R b c → R a c)
    (h1 : ∀ a b, le a b = true → R a b)
    (h2 : ∀ a b, le a b = false → R b a)
    (x : α) (l : List α) (hl : l.Pairwise R) :
    (insertSorted le x l).Pairwise R := by
  induction l with
  | nil => simp [insertSorted]
  | cons y ys ih =>
      rw [List.pairwise_cons] at hl
      obtain ⟨hy, hys⟩ := hl
      unfold insertSorted
      split
      · rename_i hle
        refine List.pairwise_cons.2 ⟨?_, List.pairwise_cons.2 ⟨hy, hys⟩⟩
        intro z hz
        rcases List.mem_cons.1 hz with hz | hz
        · subst hz; exact h1 _ _ hle
        · exact htrans _ _ _ (h1 _ _ hle) (hy z hz)
      · rename_i hle
        refine List.pairwise_cons.2 ⟨?_, ih hys⟩
        intro z hz
        rcases List.mem_cons.1 ((insertSorted_perm le x ys).mem_iff.1 hz) with hz | hz
        · subst hz
          exact h2 _ _ (by simpa using hle)
        · exact hy z hz

/-- The sort output is pairwise ordered by any `R` the comparator decides. -/
theorem pairwise_insertionSortB {α : Type} {le : α → α → Bool} {R : α → α → Prop}
    (htrans : ∀ a b c, R a b → R b c → R a c)
    (h1 : ∀ a b, le a b = true → R a b)
    (h2 : ∀ a b, le a b = false → R b a)
    (l : List α) :
    (insertionSortB le l).Pairwise R := by
  induction l with
  | nil => simp [insertionSortB]
  | cons x xs ih => exact pairwise_insertSorted htrans h1 h2 x _ ih

/-- A list already ascending under the comparator is left unchanged by the
sort. -/
theorem insertionSortB_of_pairwise {α : Type} {le : α → α → Bool}
    (l : List α) (hl : l.Pairwise (fun a b => le a b = true)) :
    insertionSortB le l = l := by
  induction l with
  | nil => rfl
  | cons x xs ih =>
      rw [List.pairwise_cons] at hl
      obtain ⟨hx, hxs⟩ := hl
      unfold insertionSortB
      rw [ih hxs]
      cases xs with
      | nil => rfl
      | cons y ys =>
          unfold insertSorted
          rw [if_pos (hx y (List.mem_cons_self y ys))]

/-- Positions attached by `enumFrom` are strictly increasing. -/
theorem pairwise_enumFrom_fst {α : Type} (n : Nat) (l : List α) :
    (List.enumFrom n l).Pairwise (fun p q => p.1 < q.1) := by
  induction l generalizing n with
  | nil => simp
  | cons x xs ih =>
      refine List.pairwise_cons.2 ⟨?_, ih (n + 1)⟩
      rintro ⟨i, z⟩ hz
      exact Nat.lt_of_lt_of_le (Nat.lt_succ_self n) (List.mem_enumFrom hz).1

/-- Positions attached by `enum` are strictly increasing. -/
theorem pairwise_enum_fst {α : Type} (l : List α) :
    l.enum.Pairwise (fun p q => p.1 < q.1) :=
  pairwise_enumFrom_fst 0 l

/-- The left fold of `max` is one of its inputs. -/
theorem foldl_max_mem (a : Int) (l : List Int) : List.foldl max a l ∈ a :: l := by
  induction l generalizing a with
  | nil => simp
  | cons b bs ih =>
      rw [List.foldl_cons]
      rcases List.mem_cons.1 (ih (max a b)) with h | h
      · rw [h]
        rcases max_choice a b with hm | hm <;> rw [hm] <;> simp
      · simp [h]

/-- The left fold of `max` bounds all of its inputs. -/
theorem le_foldl_max (l : List Int) :
    ∀ a : Int, ∀ x ∈ a :: l, x ≤ List.foldl max a l := by
  induction l with
  | nil =>
      intro a x hx
      simp at hx
      simp [hx]
  | cons b bs ih =>
      intro a x hx
      rw [List.foldl_cons]
      rcases List.mem_cons.1 hx with h | h
      · exact le_trans (le_of_eq h) (le_trans (le_max_left a b)
          (ih (max a b) _ (List.mem_cons_self _ _)))
      · rcases List.mem_cons.1 h with h | h
        · exact le_trans (le_of_eq h) (le_trans (le_max_right a b)
            (ih (max a b) _ (List.mem_cons_self _ _)))
        · exact ih (max a b) x (List.mem_cons.2 (Or.inr h))

/-- A stored state whose last processed number is at least the message
number makes `ProcessMessage` return `nil` without touching the store. -/
theorem processMessage_drop (store : Store) (msg : TelemetryMessage) (st : State)
    (hst : store msg.Metadata.Channel = some st)
    (hle : msg.Metadata.MessageNumber ≤ st.LastProcessedMessageNumber) :
    processMessage store msg = some (store, none) := by
  simp only [processMessage, hst]
  rw [if_pos hle]

/-- A stored state with a smaller last processed number routes the message
into the `switch` and the save. -/
theorem processMessage_apply (store : Store) (msg : TelemetryMessage) (st : State)
    (hst : store msg.Metadata.Channel = some st)
    (hgt : st.LastProcessedMessageNumber < msg.Metadata.MessageNumber) :
    processMessage store msg =
      (applyEvent msg st).map (fun ns => (saveRocket store ns, none)) := by
  simp only [processMessage, hst]
  rw [if_neg (not_le.2 hgt)]

/-- An unseen identifier routes the message into the `switch` on the fresh
`UNKNOWN` state. -/
theorem processMessage_none (store : Store) (msg : TelemetryMessage)
    (hst : store msg.Metadata.Channel = none) :
    processMessage store msg =
      (applyEvent msg (newRocket msg.Metadata.Channel)).map
        (fun ns => (saveRocket store ns, none)) := by
  simp only [processMessage, hst]

/-- The `Launched` arm of the `switch`. -/
theorem applyEvent_launched (msg : TelemetryMessage) (st : State)
    (t mi : String) (ls : Int)
    (hkind : msg.Metadata.MessageType = messageTypeLaunched)
    (ht : msg.Message_.type_ = some t)
    (hls : msg.Message_.LaunchSpeed = some ls)
    (hmi : msg.Message_.Mission = some mi) :
    applyEvent msg st = some
      { st with
        LastProcessedMessageNumber := msg.Metadata.MessageNumber
        LastUpdateTime := msg.Metadata.MessageTime
        type_ := t
        CurrentSpeed := ls
        Mission := mi
        status_ := statusLaunched } := by
  unfold applyEvent
  rw [hkind, if_pos rfl, ht, hls, hmi]

/-- The `SpeedIncreased` arm of the `switch`. -/
theorem applyEvent_speedIncreased (msg : TelemetryMessage) (st : State) (b : Int)
    (hkind : msg.Metadata.MessageType = messageTypeSpeedIncreased)
    (hby : msg.Message_.By = some b) :
    applyEvent msg st = some
      { st with
        LastProcessedMessageNumber := msg.Metadata.MessageNumber
        LastUpdateTime := msg.Metadata.MessageTime
        CurrentSpeed := wrap64 (st.CurrentSpeed + b) } := by
  unfold applyEvent
  rw [hkind, if_neg (by decide), if_pos rfl, hby]

/-- The `SpeedDecreased` arm of the `switch`. -/
theorem applyEvent_speedDecreased (msg : TelemetryMessage) (st : State) (b : Int)
    (hkind : msg.Metadata.MessageType = messageTypeSpeedDecreased)
    (hby : msg.Message_.By = some b) :
    applyEvent msg st = some
      { st with
        LastProcessedMessageNumber := msg.Metadata.MessageNumber
        LastUpdateTime := msg.Metadata.MessageTime
        CurrentSpeed := wrap64 (st.CurrentSpeed - b) } := by
  unfold applyEvent
  rw [hkind, if_neg (by decide), if_neg (by decide), if_pos rfl, hby]

/-- The `Exploded` arm of the `switch`. -/
theorem applyEvent_exploded (msg : TelemetryMessage) (st : State)
    (hkind : msg.Metadata.MessageType = messageTypeExploded) :
    applyEvent msg st = some
      { st with
        LastProcessedMessageNumber := msg.Metadata.MessageNumber
        LastUpdateTime := msg.Metadata.MessageTime
        CurrentSpeed := 0
        status_ := statusExploded
        Reason := msg.Message_.Reason } := by
  unfold applyEvent
  rw [hkind, if_neg (by decide), if_neg (by decide), if_neg (by decide), if_pos rfl]

/-- The `MissionChanged` arm of the `switch`. -/
theorem applyEvent_missionChanged (msg : TelemetryMessage) (st : State) (m : String)
    (hkind : msg.Metadata.MessageType = messageTypeMissionChanged)
    (hm : msg.Message_.NewMission = some m) :
    applyEvent msg st = some
      { st with
        LastProcessedMessageNumber := msg.Metadata.MessageNumber
        LastUpdateTime := msg.Metadata.MessageTime
        Mission := m } := by
  unfold applyEvent
  rw [hkind, if_neg (by decide), if_neg (by decide), if_neg (by decide),
    if_neg (by decide), if_pos rfl, hm]

/-- A message type outside the five recognized constants falls through the
`switch` with no kind-specific effect. -/
theorem applyEvent_default (msg : TelemetryMessage) (st : State)
    (hkind : msg.Metadata.MessageType ∉
      ([messageTypeLaunched, messageTypeExploded, messageTypeMissionChanged,
        messageTypeSpeedIncreased, messageTypeSpeedDecreased] : List String)) :
    applyEvent msg st = some
      { st with
        LastProcessedMessageNumber := msg.Metadata.MessageNumber
        LastUpdateTime := msg.Metadata.MessageTime } := by
  simp only [List.mem_cons, List.not_mem_nil, or_false, not_or] at hkind
  obtain ⟨h1, h2, h3, h4, h5⟩ := hkind
  unfold applyEvent
  rw [if_neg h1, if_neg h4, if_neg h5, if_neg h2, if_neg h3]

/-- A dropped message leaves the store unchanged. -/
theorem stepStore_drop (store : Store) (msg : TelemetryMessage) (st : State)
    (hst : store msg.Metadata.Channel = some st)
    (hle : msg.Metadata.MessageNumber ≤ st.LastProcessedMessageNumber) :
    stepStore store msg = store := by
  unfold stepStore
  rw [processMessage_drop store msg st hst hle]

/-- An applied message on a stored state saves the `switch` result. -/
theorem stepStore_apply (store : Store) (msg : TelemetryMessage) (st ns : State)
    (hst : store msg.Metadata.Channel = some st)
    (hgt : st.LastProcessedMessageNumber < msg.Metadata.MessageNumber)
    (happ : applyEvent msg st = some ns) :
    stepStore store msg = saveRocket store ns := by
  unfold stepStore
  rw [processMessage_apply store msg st hst hgt, happ]
  rfl

/-- A nil-pointer dereference on a stored state leaves the store
unchanged. -/
theorem stepStore_apply_none (store : Store) (msg : TelemetryMessage) (st : State)
    (hst : store msg.Metadata.Channel = some st)
    (hgt : st.LastProcessedMessageNumber < msg.Metadata.MessageNumber)
    (happ : applyEvent msg st = none) :
    stepStore store msg = store := by
  unfold stepStore
  rw [processMessage_apply store msg st hst hgt, happ]
  rfl

/-- An applied message on an unseen identifier saves the `switch` result on
the fresh state. -/
theorem stepStore_none_apply (store : Store) (msg : TelemetryMessage) (ns : State)
    (hst : store msg.Metadata.Channel = none)
    (happ : applyEvent msg (newRocket msg.Metadata.Channel) = some ns) :
    stepStore store msg = saveRocket store ns := by
  unfold stepStore
  rw [processMessage_none store msg hst, happ]
  rfl

/-- A nil-pointer dereference on an unseen identifier leaves the store
unchanged. -/
theorem stepStore_none_none (store : Store) (msg : TelemetryMessage)
    (hst : store msg.Metadata.Channel = none)
    (happ : applyEvent msg (newRocket msg.Metadata.Channel) = none) :
    stepStore store msg = store := by
  unfold stepStore
  rw [processMessage_none store msg hst, happ]
  rfl

/-- After one call, the value stored at `id` is either the old one or a
state whose `ID` field is `id`. -/
theorem stepStore_at (store : Store) (msg : TelemetryMessage) (id : UUID) :
    (stepStore store msg) id = store id ∨
      ∃ ns, (stepStore store msg) id = some ns ∧ ns.ID = id := by
  rcases hst : store msg.Metadata.Channel with _ | st
  · rcases happ : applyEvent msg (newRocket msg.Metadata.Channel) with _ | ns
    · left
      rw [stepStore_none_none store msg hst happ]
    · rw [stepStore_none_apply store msg ns hst happ]
      by_cases hid : id = ns.ID
      · right
        exact ⟨ns, by simp [saveRocket, hid], hid.symm⟩
      · left
        simp [saveRocket, hid]
  · by_cases hle : msg.Metadata.MessageNumber ≤ st.LastProcessedMessageNumber
    · left
      rw [stepStore_drop store msg st hst hle]
    · push_neg at hle
      rcases happ : applyEvent msg st with _ | ns
      · left
        rw [stepStore_apply_none store msg st hst hle happ]
      · rw [stepStore_apply store msg st ns hst hle happ]
        by_cases hid : id = ns.ID
        · right
          exact ⟨ns, by simp [saveRocket, hid], hid.symm⟩
        · left
          simp [saveRocket, hid]

/-- One call preserves the property that the value stored at `id` carries
`ID = id`. -/
theorem stepStore_idOK (store : Store) (msg : TelemetryMessage) (id : UUID)
    (h : ∀ st, store id = some st → st.ID = id) :
    ∀ st, (stepStore store msg) id = some st → st.ID = id := by
  intro st hst
  rcases stepStore_at store msg id with hsame | ⟨ns, hns, hid⟩
  · exact h st (by rw [← hsame, hst])
  · rw [hst] at hns
    cases hns
    exact hid

/-- A whole delivery sequence preserves the property that the value stored
at `id` carries `ID = id`. -/
theorem processList_idOK (evs : List TelemetryMessage) (store : Store) (id : UUID)
    (h : ∀ st, store id = some st → st.ID = id) :
    ∀ st, (processList store evs) id = some st → st.ID = id := by
  induction evs generalizing store with
  | nil => exact h
  | cons m ms ih => exact ih (stepStore store m) (stepStore_idOK store m id h)

/-- One call never lowers the sequence number stored for the channel of the
message, on a store whose entry at `id` is self-identifying. -/
theorem stepStore_lastSeq_mono (store : Store) (msg : TelemetryMessage) (id : UUID)
    (hidOK : ∀ st, store id = some st → st.ID = id)
    (hch : msg.Metadata.Channel = id) (n m : Int)
    (hn : lastSeqAt store id = some n)
    (hm : lastSeqAt (stepStore store msg) id = some m) : n ≤ m := by
  unfold lastSeqAt at hn hm
  rcases hst : store id with _ | st <;> rw [hst] at hn
  · simp at hn
  · simp at hn
    have hstch : store msg.Metadata.Channel = some st := by rw [hch, hst]
    have hID : st.ID = id := hidOK st hst
    by_cases hle : msg.Metadata.MessageNumber ≤ st.LastProcessedMessageNumber
    · rw [stepStore_drop store msg st hstch hle, hst] at hm
      simp at hm
      omega
    · push_neg at hle
      rcases happ : applyEvent msg st with _ | ns
      · rw [stepStore_apply_none store msg st hstch hle happ, hst] at hm
        simp at hm
        omega
      · rw [stepStore_apply store msg st ns hstch hle happ] at hm
        have hsave : (saveRocket store ns) id = some ns := by
          unfold saveRocket
          rw [if_pos (by rw [applyEvent_ID msg st ns happ, hID])]
        rw [hsave] at hm
        simp at hm
        rw [applyEvent_lastSeq msg st ns happ] at hm
        omega

/-- Unfolding equation of `notDroppedSeqs` on a cons cell. -/
theorem notDroppedSeqs_cons (store : Store) (m : TelemetryMessage)
    (ms : List TelemetryMessage) :
    notDroppedSeqs store (m :: ms) =
      if isDropped store m then notDroppedSeqs store ms
      else m.Metadata.MessageNumber :: notDroppedSeqs (stepStore store m) ms := rfl

/-- Folding a delivery sequence for `id` over a store that already holds a
self-identifying state for `id`: a state stays stored and its sequence
number is the running maximum of the initial one and the numbers of the
messages that were not dropped. -/
theorem processList_lastSeq (id : UUID) (evs : List TelemetryMessage) :
    ∀ (store : Store) (st : State), store id = some st → st.ID = id →
      (∀ m ∈ evs, m.Metadata.Channel = id) →
      (∀ m ∈ evs, wellFormed m = true) →
      ∃ st', (processList store evs) id = some st' ∧ st'.ID = id ∧
        st'.LastProcessedMessageNumber =
          List.foldl max st.LastProcessedMessageNumber (notDroppedSeqs store evs) := by
  induction evs with
  | nil =>
      intro store st hst hid _ _
      exact ⟨st, hst, hid, by simp [notDroppedSeqs]⟩
  | cons m ms ih =>
      intro store st hst hid hch hwf
      have hchm : m.Metadata.Channel = id := hch m (List.mem_cons_self m ms)
      have hstch : store m.Metadata.Channel = some st := by rw [hchm, hst]
      have hpl : processList store (m :: ms) = processList (stepStore store m) ms := rfl
      by_cases hle : m.Metadata.MessageNumber ≤ st.LastProcessedMessageNumber
      · have hdropped : isDropped store m = true := by
          unfold isDropped
          rw [hstch]
          simpa using hle
        have hstep : stepStore store m = store := stepStore_drop store m st hstch hle
        have hnd : notDroppedSeqs store (m :: ms) = notDroppedSeqs store ms := by
          rw [notDroppedSeqs_cons, if_pos hdropped]
        rw [hpl, hstep, hnd]
        exact ih store st hst hid (fun x hx => hch x (List.mem_cons_of_mem m hx))
          (fun x hx => hwf x (List.mem_cons_of_mem m hx))
      · push_neg at hle
        have hdropped : isDropped store m = false := by
          unfold isDropped
          rw [hstch]
          simpa using hle
        obtain ⟨ns, happ⟩ := applyEvent_isSome m st (hwf m (List.mem_cons_self m ms))
        have hstep : stepStore store m = saveRocket store ns :=
          stepStore_apply store m st ns hstch hle happ
        have hnsID : ns.ID = id := by rw [applyEvent_ID m st ns happ, hid]
        have hnum : ns.LastProcessedMessageNumber = m.Metadata.MessageNumber :=
          applyEvent_lastSeq m st ns happ
        have hsave : (saveRocket store ns) id = some ns := by
          unfold saveRocket
          rw [if_pos hnsID.symm]
        have hnd : notDroppedSeqs store (m :: ms) =
            m.Metadata.MessageNumber :: notDroppedSeqs (stepStore store m) ms := by
          rw [notDroppedSeqs_cons, if_neg (by simp [hdropped])]
        obtain ⟨st', h1, h2, h3⟩ := ih (saveRocket store ns) ns hsave hnsID
          (fun x hx => hch x (List.mem_cons_of_mem m hx))
          (fun x hx => hwf x (List.mem_cons_of_mem m hx))
        refine ⟨st', by rw [hpl, hstep]; exact h1, h2, ?_⟩
        rw [hnd, List.foldl_cons, max_eq_right (le_of_lt hle), hstep, h3, hnum]

/-- The empty store built by `NewInMemoryRocketStore`. -/
def emptyStore : Store := fun _ => none

/-- A concrete stored state used to instantiate the claims. -/
def fixtureState : State :=
  { ID := "r1"
    type_ := "Falcon-9"
    CurrentSpeed := 100
    Mission := "VOYAGER"
    status_ := statusLaunched
    Reason := none
    LastUpdateTime := 10
    LastProcessedMessageNumber := 5 }

/-- A concrete one-rocket store used to instantiate the claims. -/
def fixtureStore : Store := fun i => if i = "r1" then some fixtureState else none

/-- A concrete `SpeedIncreased` message with sequence number 3, stale for
`fixtureState` (whose last processed number is 5). -/
def staleMsg : TelemetryMessage :=
  { Metadata :=
      { Channel := "r1", MessageNumber := 3, MessageTime := 11,
        MessageType := messageTypeSpeedIncreased }
    Message_ :=
      { By := some 10, LaunchSpeed := none, Mission := none, NewMission := none,
        Reason := none, type_ := none } }

/-- C1: for every stored entity state and every telemetry event for that
entity whose sequence number is at most the stored `lastSequence`,
`ProcessMessage` returns no error and leaves the store completely
unchanged: the result is the very same store function, so no field is
mutated and no save is performed. -/
theorem c1_stale_event_dropped (store : Store) (msg : TelemetryMessage) (st : State)
    (hst : store msg.Metadata.Channel = some st)
    (hle : msg.Metadata.MessageNumber ≤ st.LastProcessedMessageNumber) :
    processMessage store msg = some (store, none) :=
  processMessage_drop store msg st hst hle

/-- Witness for C1: a stored state with `lastSequence = 5` and an event
with sequence 3 are dropped with no error and no store change. -/
theorem c1_stale_event_dropped_witness :
    fixtureStore staleMsg.Metadata.Channel = some fixtureState ∧
    staleMsg.Metadata.MessageNumber ≤ fixtureState.LastProcessedMessageNumber ∧
    processMessage fixtureStore staleMsg = some (fixtureStore, none) :=
  ⟨by decide, by decide,
    c1_stale_event_dropped fixtureStore staleMsg fixtureState (by decide) (by decide)⟩

/-- The `Launched` message of the launch-transition claim: type Falcon-9,
launch speed 1000, mission ARTEMIS, sequence 1, time `t`. -/
def launchedMsg (id : UUID) (t : TimeT) : TelemetryMessage :=
  { Metadata :=
      { Channel := id, MessageNumber := 1, MessageTime := t,
        MessageType := messageTypeLaunched }
    Message_ :=
      { By := none, LaunchSpeed := some 1000, Mission := some "ARTEMIS",
        NewMission := none, Reason := none, type_ := some "Falcon-9" } }

/-- The state the launch-transition claim expects to be stored. -/
def launchedState (id : UUID) (t : TimeT) : State :=
  { ID := id
    type_ := "Falcon-9"
    CurrentSpeed := 1000
    Mission := "ARTEMIS"
    status_ := statusLaunched
    Reason := none
    LastUpdateTime := t
    LastProcessedMessageNumber := 1 }

/-- C3: on an identifier with no stored state, processing a `Launched`
event with type Falcon-9, launch speed 1000, mission ARTEMIS, sequence 1
and time `t` stores exactly the state with that identifier, type Falcon-9,
speed 1000, mission ARTEMIS, status LAUNCHED, absent reason, last sequence
1 and last update time `t`. -/
theorem c3_launch_transition (store : Store) (id : UUID) (t : TimeT)
    (hfresh : store id = none) :
    processMessage store (launchedMsg id t) =
      some (saveRocket store (launchedState id t), none) ∧
    (saveRocket store (launchedState id t)) id = some (launchedState id t) := by
  constructor
  · rw [processMessage_none store (launchedMsg id t) hfresh,
      applyEvent_launched (launchedMsg id t) _ "Falcon-9" "ARTEMIS" 1000 rfl rfl rfl rfl]
    rfl
  · unfold saveRocket
    rw [if_pos (show id = (launchedState id t).ID from rfl)]

/-- Witness for C3: the launch transition on the empty store. -/
theorem c3_launch_transition_witness :
    emptyStore "aa" = none ∧
    (processMessage emptyStore (launchedMsg "aa" 7) =
      some (saveRocket emptyStore (launchedState "aa" 7), none) ∧
    (saveRocket emptyStore (launchedState "aa" 7)) "aa" =
      some (launchedState "aa" 7)) :=
  ⟨rfl, c3_launch_transition emptyStore "aa" 7 rfl⟩

/-- C4: for every stored state and every accepted `Exploded` event whose
reason is "fuel leak", the saved state has speed 0, status EXPLODED and
reason "fuel leak", whatever the prior speed was. -/
theorem c4_explosion_terminal (store : Store) (msg : TelemetryMessage) (st : State)
    (hst : store msg.Metadata.Channel = some st)
    (hacc : st.LastProcessedMessageNumber < msg.Metadata.MessageNumber)
    (hkind : msg.Metadata.MessageType = messageTypeExploded)
    (hreason : msg.Message_.Reason = some "fuel leak") :
    ∃ st', processMessage store msg = some (saveRocket store st', none) ∧
      st'.CurrentSpeed = 0 ∧ st'.status_ = statusExploded ∧
      st'.Reason = some "fuel leak" := by
  refine ⟨{ st with
      LastProcessedMessageNumber := msg.Metadata.MessageNumber
      LastUpdateTime := msg.Metadata.MessageTime
      CurrentSpeed := 0
      status_ := statusExploded
      Reason := msg.Message_.Reason }, ?_, rfl, rfl, hreason⟩
  rw [processMessage_apply store msg st hst hacc, applyEvent_exploded msg st hkind]
  rfl

/-- A concrete `Exploded` message with reason "fuel leak" and sequence 6. -/
def explodedMsg : TelemetryMessage :=
  { Metadata :=
      { Channel := "r1", MessageNumber := 6, MessageTime := 12,
        MessageType := messageTypeExploded }
    Message_ :=
      { By := none, LaunchSpeed := none, Mission := none, NewMission := none,
        Reason := some "fuel leak", type_ := none } }

/-- Witness for C4: the explosion applied to the fixture store. -/
theorem c4_explosion_terminal_witness :
    fixtureStore explodedMsg.Metadata.Channel = some fixtureState ∧
    fixtureState.LastProcessedMessageNumber < explodedMsg.Metadata.MessageNumber ∧
    ∃ st', processMessage fixtureStore explodedMsg =
        some (saveRocket fixtureStore st', none) ∧
      st'.CurrentSpeed = 0 ∧ st'.status_ = statusExploded ∧
      st'.Reason = some "fuel leak" :=
  ⟨by decide, by decide,
    c4_explosion_terminal fixtureStore explodedMsg fixtureState
      (by decide) (by decide) rfl rfl⟩

/-- The `SpeedIncreased` message of the speed-arithmetic claim: amount 500,
sequence 2. -/
def speedIncMsg (id : UUID) (t : TimeT) : TelemetryMessage :=
  { Metadata :=
      { Channel := id, MessageNumber := 2, MessageTime := t,
        MessageType := messageTypeSpeedIncreased }
    Message_ :=
      { By := some 500, LaunchSpeed := none, Mission := none, NewMission := none,
        Reason := none, type_ := none } }

/-- The `SpeedDecreased` message of the speed-arithmetic claim: amount 200,
sequence 3. -/
def speedDecMsg (id : UUID) (t : TimeT) : TelemetryMessage :=
  { Metadata :=
      { Channel := id, MessageNumber := 3, MessageTime := t,
        MessageType := messageTypeSpeedDecreased }
    Message_ :=
      { By := some 200, LaunchSpeed := none, Mission := none, NewMission := none,
        Reason := none, type_ := none } }

/-- A first-seen `SpeedDecreased` message driving the fresh zero speed to
a negative value. -/
def negDecMsg : TelemetryMessage :=
  { Metadata :=
      { Channel := "r9", MessageNumber := 1, MessageTime := 0,
        MessageType := messageTypeSpeedDecreased }
    Message_ :=
      { By := some 5, LaunchSpeed := none, Mission := none, NewMission := none,
        Reason := none, type_ := none } }

/-- C5: starting from a stored speed of 1000, an accepted `SpeedIncreased`
of 500 (sequence 2) followed by an accepted `SpeedDecreased` of 200
(sequence 3) stores speed 1300; and the speed is a signed integer that
`SpeedDecreased` can drive negative, as on a fresh entity whose zero speed
becomes -5. -/
theorem c5_speed_arithmetic :
    (∀ (store : Store) (id : UUID) (st : State) (t2 t3 : TimeT),
      store id = some st → st.ID = id → st.CurrentSpeed = 1000 →
      st.LastProcessedMessageNumber < 2 →
      ((stepStore (stepStore store (speedIncMsg id t2)) (speedDecMsg id t3)) id).map
          (fun s => s.CurrentSpeed) = some 1300) ∧
    ((stepStore emptyStore negDecMsg) "r9").map (fun s => s.CurrentSpeed) =
      some (-5) := by
  constructor
  · intro store id st t2 t3 hst hid hspeed hseq
    have hst2 : store (speedIncMsg id t2).Metadata.Channel = some st := hst
    have happ1 : applyEvent (speedIncMsg id t2) st = some
        { st with
          LastProcessedMessageNumber := 2
          LastUpdateTime := t2
          CurrentSpeed := wrap64 (st.CurrentSpeed + 500) } :=
      applyEvent_speedIncreased (speedIncMsg id t2) st 500 rfl rfl
    have hstep1 := stepStore_apply store (speedIncMsg id t2) st _ hst2 hseq happ1
    rw [hstep1]
    have hsave1 : (saveRocket store
        { st with
          LastProcessedMessageNumber := 2
          LastUpdateTime := t2
          CurrentSpeed := wrap64 (st.CurrentSpeed + 500) })
          (speedDecMsg id t3).Metadata.Channel = some
        { st with
          LastProcessedMessageNumber := 2
          LastUpdateTime := t2
          CurrentSpeed := wrap64 (st.CurrentSpeed + 500) } := by
      unfold saveRocket
      rw [if_pos (show (speedDecMsg id t3).Metadata.Channel =
        ({ st with
            LastProcessedMessageNumber := 2
            LastUpdateTime := t2
            CurrentSpeed := wrap64 (st.CurrentSpeed + 500) } : State).ID from hid.symm)]
    have happ2 : applyEvent (speedDecMsg id t3)
        { st with
          LastProcessedMessageNumber := 2
          LastUpdateTime := t2
          CurrentSpeed := wrap64 (st.CurrentSpeed + 500) } = some
        { st with
          LastProcessedMessageNumber := 3
          LastUpdateTime := t3
          CurrentSpeed := wrap64 (wrap64 (st.CurrentSpeed + 500) - 200) } :=
      applyEvent_speedDecreased (speedDecMsg id t3) _ 200 rfl rfl
    have hstep2 := stepStore_apply _ (speedDecMsg id t3) _ _ hsave1
      (show (2 : Int) < 3 by norm_num) happ2
    rw [hstep2]
    have hsave2 : (saveRocket (saveRocket store
        { st with
          LastProcessedMessageNumber := 2
          LastUpdateTime := t2
          CurrentSpeed := wrap64 (st.CurrentSpeed + 500) })
        { st with
          LastProcessedMessageNumber := 3
          LastUpdateTime := t3
          CurrentSpeed := wrap64 (wrap64 (st.CurrentSpeed + 500) - 200) }) id = some
        { st with
          LastProcessedMessageNumber := 3
          LastUpdateTime := t3
          CurrentSpeed := wrap64 (wrap64 (st.CurrentSpeed + 500) - 200) } := by
      unfold saveRocket
      rw [if_pos (show id =
        ({ st with
            LastProcessedMessageNumber := 3
            LastUpdateTime := t3
            CurrentSpeed := wrap64 (wrap64 (st.CurrentSpeed + 500) - 200) } : State).ID
        from hid.symm)]
    rw [hsave2]
    show some (wrap64 (wrap64 (st.CurrentSpeed + 500) - 200)) = some 1300
    rw [hspeed]
    decide
  · decide

/-- A stored state with speed 1000 and last processed number 1. -/
def speedFixture : State :=
  { fixtureState with CurrentSpeed := 1000, LastProcessedMessageNumber := 1 }

/-- A one-rocket store holding `speedFixture`. -/
def speedStore : Store := fun i => if i = "r1" then some speedFixture else none

/-- Witness for C5: the first conjunct applied to a store whose rocket has
speed 1000 and last processed number 1. -/
theorem c5_speed_arithmetic_witness :
    speedStore "r1" = some speedFixture ∧
    ((stepStore (stepStore speedStore (speedIncMsg "r1" 20))
        (speedDecMsg "r1" 21)) "r1").map (fun s => s.CurrentSpeed) = some 1300 :=
  ⟨by decide,
    c5_speed_arithmetic.1 speedStore "r1" speedFixture 20 21
      (by decide) (by decide) (by decide) (by decide)⟩

/-- C6: processing the same telemetry message twice leaves the store
exactly as processing it once: the second call either drops the message as
a duplicate or recomputes and overwrites the identical state. -/
theorem c6_dedup_idempotent (store : Store) (msg : TelemetryMessage) :
    stepStore (stepStore store msg) msg = stepStore store msg := by
  rcases hst : store msg.Metadata.Channel with _ | st
  · rcases happ : applyEvent msg (newRocket msg.Metadata.Channel) with _ | ns
    · have h1 : stepStore store msg = store := stepStore_none_none store msg hst happ
      rw [h1, h1]
    · have h1 : stepStore store msg = saveRocket store ns :=
        stepStore_none_apply store msg ns hst happ
      have hID : ns.ID = msg.Metadata.Channel := applyEvent_ID msg _ ns happ
      have hnum : ns.LastProcessedMessageNumber = msg.Metadata.MessageNumber :=
        applyEvent_lastSeq msg _ ns happ
      have hsave : (saveRocket store ns) msg.Metadata.Channel = some ns := by
        unfold saveRocket
        rw [if_pos hID.symm]
      rw [h1]
      exact stepStore_drop (saveRocket store ns) msg ns hsave (le_of_eq hnum.symm)
  · by_cases hle : msg.Metadata.MessageNumber ≤ st.LastProcessedMessageNumber
    · have h1 : stepStore store msg = store := stepStore_drop store msg st hst hle
      rw [h1, h1]
    · push_neg at hle
      rcases happ : applyEvent msg st with _ | ns
      · have h1 : stepStore store msg = store :=
          stepStore_apply_none store msg st hst hle happ
        rw [h1, h1]
      · have h1 : stepStore store msg = saveRocket store ns :=
          stepStore_apply store msg st ns hst hle happ
        have hID : ns.ID = st.ID := applyEvent_ID msg st ns happ
        have hnum : ns.LastProcessedMessageNumber = msg.Metadata.MessageNumber :=
          applyEvent_lastSeq msg st ns happ
        rw [h1]
        by_cases hch : msg.Metadata.Channel = st.ID
        · have hsave : (saveRocket store ns) msg.Metadata.Channel = some ns := by
            unfold saveRocket
            rw [if_pos (by rw [hID, hch])]
          exact stepStore_drop (saveRocket store ns) msg ns hsave (le_of_eq hnum.symm)
        · have hsave : (saveRocket store ns) msg.Metadata.Channel = some st := by
            unfold saveRocket
            rw [if_neg (fun h => hch (by rw [h, hID]))]
            exact hst
          rw [stepStore_apply (saveRocket store ns) msg st ns hsave hle happ]
          funext i
          unfold saveRocket
          by_cases hi : i = ns.ID <;> simp [hi]

/-- C9: on an identifier with no stored state, `ProcessMessage` performs no
duplicate or stale check: any well-formed first event, whatever its
sequence number (zero and negative included), is applied and the stored
state carries that number as its last processed sequence number. -/
theorem c9_first_event_any_sequence (store : Store) (msg : TelemetryMessage)
    (hfresh : store msg.Metadata.Channel = none)
    (hwf : wellFormed msg = true) :
    ∃ ns, processMessage store msg = some (saveRocket store ns, none) ∧
      (saveRocket store ns) msg.Metadata.Channel = some ns ∧
      ns.LastProcessedMessageNumber = msg.Metadata.MessageNumber := by
  obtain ⟨ns, happ⟩ := applyEvent_isSome msg (newRocket msg.Metadata.Channel) hwf
  refine ⟨ns, ?_, ?_, applyEvent_lastSeq msg _ ns happ⟩
  · rw [processMessage_none store msg hfresh, happ]
    rfl
  · have hID : ns.ID = msg.Metadata.Channel := applyEvent_ID msg _ ns happ
    unfold saveRocket
    rw [if_pos hID.symm]

/-- A first-seen `SpeedIncreased` message with the negative sequence
number -3. -/
def negSeqMsg : TelemetryMessage :=
  { Metadata :=
      { Channel := "r7", MessageNumber := -3, MessageTime := 1,
        MessageType := messageTypeSpeedIncreased }
    Message_ :=
      { By := some 4, LaunchSpeed := none, Mission := none, NewMission := none,
        Reason := none, type_ := none } }

/-- Witness for C9: a first event with sequence number -3 is accepted on
the empty store and -3 becomes the stored last sequence number. -/
theorem c9_first_event_any_sequence_witness :
    emptyStore negSeqMsg.Metadata.Channel = none ∧ wellFormed negSeqMsg = true ∧
    ∃ ns, processMessage emptyStore negSeqMsg = some (saveRocket emptyStore ns, none) ∧
      (saveRocket emptyStore ns) negSeqMsg.Metadata.Channel = some ns ∧
      ns.LastProcessedMessageNumber = negSeqMsg.Metadata.MessageNumber :=
  ⟨rfl, by decide, c9_first_event_any_sequence emptyStore negSeqMsg rfl (by decide)⟩

/-- C10: an event of a kind outside the five recognized constants that
passes the sequencing check is still saved: the stored state is the prior
one (or the fresh `UNKNOWN` state when the identifier is unseen) with only
`LastProcessedMessageNumber` and `LastUpdateTime` replaced by the event
sequence number and time, every other field unchanged. -/
theorem c10_unknown_kind_saves (store : Store) (msg : TelemetryMessage)
    (hkind : msg.Metadata.MessageType ∉
      ([messageTypeLaunched, messageTypeExploded, messageTypeMissionChanged,
        messageTypeSpeedIncreased, messageTypeSpeedDecreased] : List String)) :
    (∀ st, store msg.Metadata.Channel = some st →
      st.LastProcessedMessageNumber < msg.Metadata.MessageNumber →
      processMessage store msg = some (saveRocket store
        { st with
          LastProcessedMessageNumber := msg.Metadata.MessageNumber
          LastUpdateTime := msg.Metadata.MessageTime }, none)) ∧
    (store msg.Metadata.Channel = none →
      processMessage store msg = some (saveRocket store
        { newRocket msg.Metadata.Channel with
          LastProcessedMessageNumber := msg.Metadata.MessageNumber
          LastUpdateTime := msg.Metadata.MessageTime }, none)) := by
  constructor
  · intro st hst hacc
    rw [processMessage_apply store msg st hst hacc, applyEvent_default msg st hkind]
    rfl
  · intro hfresh
    rw [processMessage_none store msg hfresh,
      applyEvent_default msg (newRocket msg.Metadata.Channel) hkind]
    rfl

/-- A message with the unrecognized kind string `RocketDocked`, sequence
9. -/
def unknownKindMsg : TelemetryMessage :=
  { Metadata :=
      { Channel := "r1", MessageNumber := 9, MessageTime := 13,
        MessageType := "RocketDocked" }
    Message_ :=
      { By := none, LaunchSpeed := none, Mission := none, NewMission := none,
        Reason := none, type_ := none } }

/-- Witness for C10: the unrecognized kind `RocketDocked` on the fixture
store. -/
theorem c10_unknown_kind_saves_witness :
    unknownKindMsg.Metadata.MessageType ∉
      ([messageTypeLaunched, messageTypeExploded, messageTypeMissionChanged,
        messageTypeSpeedIncreased, messageTypeSpeedDecreased] : List String) ∧
    ((∀ st, fixtureStore unknownKindMsg.Metadata.Channel = some st →
      st.LastProcessedMessageNumber < unknownKindMsg.Metadata.MessageNumber →
      processMessage fixtureStore unknownKindMsg = some (saveRocket fixtureStore
        { st with
          LastProcessedMessageNumber := unknownKindMsg.Metadata.MessageNumber
          LastUpdateTime := unknownKindMsg.Metadata.MessageTime }, none)) ∧
    (fixtureStore unknownKindMsg.Metadata.Channel = none →
      processMessage fixtureStore unknownKindMsg = some (saveRocket fixtureStore
        { newRocket unknownKindMsg.Metadata.Channel with
          LastProcessedMessageNumber := unknownKindMsg.Metadata.MessageNumber
          LastUpdateTime := unknownKindMsg.Metadata.MessageTime }, none))) :=
  ⟨by decide, c10_unknown_kind_saves fixtureStore unknownKindMsg (by decide)⟩

/-- C2: over any delivery sequence of well-formed events for one entity
identifier starting from no stored state, the stored last sequence number
never decreases between consecutive calls, and after all calls it is the
maximum of the sequence numbers of the events that were not dropped. -/
theorem c2_monotonic_sequence (id : UUID) (evs : List TelemetryMessage) (store : Store)
    (hfresh : store id = none)
    (hch : ∀ m ∈ evs, m.Metadata.Channel = id)
    (hwf : ∀ m ∈ evs, wellFormed m = true)
    (hne : evs ≠ []) :
    (∀ pre e rest, evs = pre ++ e :: rest →
      ∀ n m, lastSeqAt (processList store pre) id = some n →
        lastSeqAt (processList store (pre ++ [e])) id = some m → n ≤ m) ∧
    ∃ n, lastSeqAt (processList store evs) id = some n ∧
      n ∈ notDroppedSeqs store evs ∧ ∀ q ∈ notDroppedSeqs store evs, q ≤ n := by
  constructor
  · rintro pre e rest hsplit n m hn hm
    have hche : e.Metadata.Channel = id := hch e
      (by rw [hsplit]; exact List.mem_append.2 (Or.inr (List.mem_cons_self e rest)))
    have hidOK : ∀ st, (processList store pre) id = some st → st.ID = id :=
      processList_idOK pre store id (fun st h => by rw [hfresh] at h; cases h)
    have hplapp : processList store (pre ++ [e]) = stepStore (processList store pre) e := by
      unfold processList
      rw [List.foldl_append]
      rfl
    rw [hplapp] at hm
    exact stepStore_lastSeq_mono (processList store pre) e id hidOK hche n m hn hm
  · rcases evs with _ | ⟨e, ms⟩
    · exact absurd rfl hne
    · have hche : e.Metadata.Channel = id := hch e (List.mem_cons_self e ms)
      have hfreshch : store e.Metadata.Channel = none := by rw [hche, hfresh]
      obtain ⟨ns, happ⟩ := applyEvent_isSome e (newRocket e.Metadata.Channel)
        (hwf e (List.mem_cons_self e ms))
      have hstep : stepStore store e = saveRocket store ns :=
        stepStore_none_apply store e ns hfreshch happ
      have hnsID : ns.ID = id := by
        rw [applyEvent_ID e _ ns happ]
        exact hche
      have hnum : ns.LastProcessedMessageNumber = e.Metadata.MessageNumber :=
        applyEvent_lastSeq e _ ns happ
      have hsave : (saveRocket store ns) id = some ns := by
        unfold saveRocket
        rw [if_pos hnsID.symm]
      have hdropped : isDropped store e = false := by
        unfold isDropped
        rw [hfreshch]
      have hnd : notDroppedSeqs store (e :: ms) =
          e.Metadata.MessageNumber :: notDroppedSeqs (stepStore store e) ms := by
        rw [notDroppedSeqs_cons, if_neg (by simp [hdropped])]
      obtain ⟨st', h1, h2, h3⟩ := processList_lastSeq id ms (saveRocket store ns) ns
        hsave hnsID (fun x hx => hch x (List.mem_cons_of_mem e hx))
        (fun x hx => hwf x (List.mem_cons_of_mem e hx))
      have hpl : processList store (e :: ms) = processList (saveRocket store ns) ms := by
        show processList (stepStore store e) ms = _
        rw [hstep]
      refine ⟨st'.LastProcessedMessageNumber, ?_, ?_, ?_⟩
      · unfold lastSeqAt
        rw [hpl, h1]
        rfl
      · rw [hnd, hstep, h3, hnum]
        exact foldl_max_mem _ _
      · intro q hq
        rw [hnd, hstep] at hq
        rw [h3, hnum]
        exact le_foldl_max _ _ q hq

/-- Witness for C2: the launch followed by the speed increase on the empty
store. -/
theorem c2_monotonic_sequence_witness :
    emptyStore "r1" = none ∧
    (∀ m ∈ [launchedMsg "r1" 5, speedIncMsg "r1" 6], m.Metadata.Channel = "r1") ∧
    (∀ m ∈ [launchedMsg "r1" 5, speedIncMsg "r1" 6], wellFormed m = true) ∧
    ([launchedMsg "r1" 5, speedIncMsg "r1" 6] ≠ []) ∧
    ((∀ pre e rest, [launchedMsg "r1" 5, speedIncMsg "r1" 6] = pre ++ e :: rest →
      ∀ n m, lastSeqAt (processList emptyStore pre) "r1" = some n →
        lastSeqAt (processList emptyStore (pre ++ [e])) "r1" = some m → n ≤ m) ∧
    ∃ n, lastSeqAt (processList emptyStore [launchedMsg "r1" 5, speedIncMsg "r1" 6]) "r1" =
        some n ∧
      n ∈ notDroppedSeqs emptyStore [launchedMsg "r1" 5, speedIncMsg "r1" 6] ∧
      ∀ q ∈ notDroppedSeqs emptyStore [launchedMsg "r1" 5, speedIncMsg "r1" 6], q ≤ n) :=
  ⟨rfl, by decide, by decide, by decide,
    c2_monotonic_sequence "r1" [launchedMsg "r1" 5, speedIncMsg "r1" 6] emptyStore
      rfl (by decide) (by decide) (by decide)⟩

/-- C7: with sort field `speed` (case-insensitive), `ListAllRockets`
returns a permutation of the snapshot that is non-increasing in speed when
`sortOrder` is case-insensitively `desc`, and non-decreasing for any other
`sortOrder` (the empty one included). -/
theorem c7_sort_by_speed (rockets : List State) (sortBy sortOrder : String)
    (hfield : stringsToLower sortBy = "speed") :
    (listAllRockets rockets sortBy sortOrder).Perm rockets ∧
    (stringsToLower sortOrder = "desc" →
      (listAllRockets rockets sortBy sortOrder).Pairwise
        (fun a b => b.CurrentSpeed ≤ a.CurrentSpeed)) ∧
    (stringsToLower sortOrder ≠ "desc" →
      (listAllRockets rockets sortBy sortOrder).Pairwise
        (fun a b => a.CurrentSpeed ≤ b.CurrentSpeed)) := by
  have hne : sortBy ≠ "" := by
    intro h
    rw [h] at hfield
    exact absurd hfield (by decide)
  have hless : ∀ p q : Nat × State, sliceLess sortBy sortOrder p q =
      flipDesc sortOrder (decide (p.2.CurrentSpeed < q.2.CurrentSpeed)) := by
    intro p q
    unfold sliceLess
    rw [hfield]
    rw [if_neg (by decide), if_neg (by decide), if_pos rfl]
  unfold listAllRockets
  rw [if_neg hne]
  refine ⟨?_, ?_, ?_⟩
  · have hperm := (insertionSortB_perm
      (fun p q => !(sliceLess sortBy sortOrder q p)) rockets.enum).map Prod.snd
    rwa [List.enum_map_snd] at hperm
  · intro hdesc
    have hflip : ∀ b : Bool, flipDesc sortOrder b = !b := by
      intro b
      unfold flipDesc
      rw [if_pos hdesc]
    refine List.Pairwise.map Prod.snd (fun p q h => h) ?_
    refine pairwise_insertionSortB
      (R := fun p q => q.2.CurrentSpeed ≤ p.2.CurrentSpeed) ?_ ?_ ?_ rockets.enum
    · intro a b c h1 h2
      exact le_trans h2 h1
    · intro a b hab
      rw [hless b a, hflip] at hab
      simp at hab
      exact le_of_lt hab
    · intro a b hab
      rw [hless b a, hflip] at hab
      simp at hab
      exact hab
  · intro hndesc
    have hflip : ∀ b : Bool, flipDesc sortOrder b = b := by
      intro b
      unfold flipDesc
      rw [if_neg hndesc]
    refine List.Pairwise.map Prod.snd (fun p q h => h) ?_
    refine pairwise_insertionSortB
      (R := fun p q => p.2.CurrentSpeed ≤ q.2.CurrentSpeed) ?_ ?_ ?_ rockets.enum
    · intro a b c h1 h2
      exact le_trans h1 h2
    · intro a b hab
      rw [hless b a, hflip] at hab
      simp at hab
      exact hab
    · intro a b hab
      rw [hless b a, hflip] at hab
      simp at hab
      exact le_of_lt hab

/-- Three rockets with speeds 100, 200 and 300, in that snapshot order. -/
def rockets123 : List State :=
  [{ fixtureState with ID := "a1", CurrentSpeed := 100 },
   { fixtureState with ID := "a2", CurrentSpeed := 200 },
   { fixtureState with ID := "a3", CurrentSpeed := 300 }]

/-- Witness for C7: sorting the 100/200/300 snapshot by `SPEED` in `Desc`
order; the concrete output is 300, 200, 100. -/
theorem c7_sort_by_speed_witness :
    stringsToLower "SPEED" = "speed" ∧
    ((listAllRockets rockets123 "SPEED" "Desc").Perm rockets123 ∧
      (stringsToLower "Desc" = "desc" →
        (listAllRockets rockets123 "SPEED" "Desc").Pairwise
          (fun a b => b.CurrentSpeed ≤ a.CurrentSpeed)) ∧
      (stringsToLower "Desc" ≠ "desc" →
        (listAllRockets rockets123 "SPEED" "Desc").Pairwise
          (fun a b => a.CurrentSpeed ≤ b.CurrentSpeed))) ∧
    listAllRockets rockets123 "SPEED" "Desc" =
      [{ fixtureState with ID := "a3", CurrentSpeed := 300 },
       { fixtureState with ID := "a2", CurrentSpeed := 200 },
       { fixtureState with ID := "a1", CurrentSpeed := 100 }] :=
  ⟨by decide, c7_sort_by_speed rockets123 "SPEED" "Desc" (by decide), by decide⟩

/-- C8: a non-empty sort field outside the five recognized ones makes
`ListAllRockets` return the snapshot in its original order, with no
error. -/
theorem c8_unknown_sort_field (rockets : List State) (sortBy sortOrder : String)
    (hne : sortBy ≠ "")
    (hfield : stringsToLower sortBy ∉
      (["id", "type", "speed", "mission", "lastupdatetime"] : List String)) :
    listAllRockets rockets sortBy sortOrder = rockets := by
  simp only [List.mem_cons, List.not_mem_nil, or_false, not_or] at hfield
  obtain ⟨h1, h2, h3, h4, h5⟩ := hfield
  have hless : ∀ p q : Nat × State, sliceLess sortBy sortOrder p q =
      decide (p.1 < q.1) := by
    intro p q
    unfold sliceLess
    rw [if_neg h1, if_neg h2, if_neg h3, if_neg h4, if_neg h5]
  have himp : ∀ {p q : Nat × State}, p.1 < q.1 →
      (!(sliceLess sortBy sortOrder q p)) = true := by
    intro p q hpq
    rw [hless q p]
    simp
    omega
  unfold listAllRockets
  rw [if_neg hne,
    insertionSortB_of_pairwise _ (List.Pairwise.imp himp (pairwise_enum_fst rockets)),
    List.enum_map_snd]

/-- Witness for C8: sorting the 100/200/300 snapshot by the unknown field
`altitude` descending returns it unchanged. -/
theorem c8_unknown_sort_field_witness :
    ("altitude" : String) ≠ "" ∧
    stringsToLower "altitude" ∉
      (["id", "type", "speed", "mission", "lastupdatetime"] : List String) ∧
    listAllRockets rockets123 "altitude" "desc" = rockets123 :=
  ⟨by decide, by decide, c8_unknown_sort_field rockets123 "altitude" "desc"
    (by decide) (by decide)⟩
